import Mathlib

/-!
Verification of `tools/modfile.py` (the modified-file-data generator).

The Python program is embedded shallowly:

* byte streams (`infile`, `/dev/urandom`) become `List ℕ`, and a Python
  `f.read(n)` becomes `List.take n` / `List.drop n` on the remaining bytes
  (a buffered read returns up to `n` bytes, and fewer only at end of file);
* the Mersenne-Twister draws of `random.Random(seed)` are abstracted by a
  function `samp : ℕ → ℕ → ℚ → ℕ` giving, for a seed, a draw index and an
  exponential-distribution rate, the value of `int(mod.expovariate(lambd))`
  at that point of the stream.  The generator state carries the number `k`
  of draws consumed since the generator was last seeded, so re-seeding is
  `k := 0`.  All theorems are universally quantified over `samp`, which
  keeps exactly the structure the claims depend on: draws are a
  deterministic function of the seed and the draw index, and a disabled
  phase consumes no draw;
* Python integers are `ℕ` (all quantities here are non-negative and exact);
  the float rates `1.0/clen` are carried as exact rationals, which is
  harmless because theorems never inspect their values;
* code that can raise becomes `Option` (`none` = the Python exception).
-/

namespace Modfile

/-- Modelled from the spec: the `Sample` accumulator imported from
`stats1.py`, a file that is not part of the sources here.  Per §4.1 of the
specification it keeps the running count, sum and sum of squares of a
numeric series, and `add(value)` increments the count by 1, the sum by
`value` and the sum of squares by `value²`. -/
structure Sample where
  count : ℕ
  sum : ℕ
  sum2 : ℕ
deriving DecidableEq

/-- A freshly constructed `Sample()`: no values recorded yet. -/
def Sample.empty : Sample := ⟨0, 0, 0⟩

/-- Modelled from the spec: `Sample.add(value)`. -/
def Sample.add (s : Sample) (v : ℕ) : Sample :=
  ⟨s.count + 1, s.sum + v, s.sum2 + v * v⟩

/-- The state of a `ModifiedFileData` object.  `dat` is the unread rest of
the original-content stream `self.dat`, `ins` the unread rest of the
randomness source `self.ins`, and `k` the number of `expovariate` draws
consumed from `self.mod` since it was last seeded. -/
@[ext]
structure GenState where
  clen : ℕ
  ilen : ℕ
  dlen : ℕ
  seed : ℕ
  clambd : ℚ
  ilambd : ℚ
  dlambd : ℚ
  k : ℕ
  cpy_n : ℕ
  ins_n : ℕ
  del_n : ℕ
  cpystats : Sample
  insstats : Sample
  delstats : Sample
  dat : List ℕ
  ins : List ℕ
deriving DecidableEq

/-- `ModifiedFileData.initcycle`.  Python evaluates
`self.ilen and int(self.mod.expovariate(self.ilambd))`: when `ilen == 0`
the conjunction short-circuits to `0` and no draw is consumed, otherwise
one draw is consumed; likewise for `dlen`.  The copy length is always
`max(1, ...)`. -/
def initcycle (samp : ℕ → ℕ → ℚ → ℕ) (g : GenState) : GenState :=
  let cpy := max 1 (samp g.seed g.k g.clambd)
  let k1 := g.k + 1
  let insv := if g.ilen = 0 then 0 else samp g.seed k1 g.ilambd
  let k2 := if g.ilen = 0 then k1 else k1 + 1
  let delv := if g.dlen = 0 then 0 else samp g.seed k2 g.dlambd
  let k3 := if g.dlen = 0 then k2 else k2 + 1
  { g with cpy_n := cpy, ins_n := insv, del_n := delv, k := k3 }

/-- `ModifiedFileData.reset`: re-create `self.mod = random.Random(self.seed)`
(the draw counter restarts from 0 with the stored seed), fresh `Sample`
accumulators, then `initcycle`.  The two input streams are untouched. -/
def reset (samp : ℕ → ℕ → ℚ → ℕ) (g : GenState) : GenState :=
  initcycle samp
    { g with k := 0, cpystats := Sample.empty, insstats := Sample.empty,
             delstats := Sample.empty }

/-- `ModifiedFileData.__init__(infile, clen, ilen=None, dlen=None, seed=1)`:
an omitted `ilen` defaults to `clen`, an omitted `dlen` defaults to `clen`
(source line `if dlen is None: dlen = clen`), the rates are `1.0/clen` and
`ilen and 1.0/ilen` (so `0` when the mean is `0`), and the constructor ends
by calling `reset`. -/
def mkData (samp : ℕ → ℕ → ℚ → ℕ) (dat : List ℕ) (clen : ℕ)
    (ilen? dlen? : Option ℕ) (seed : ℕ) (ins : List ℕ) : GenState :=
  let ilen := ilen?.getD clen
  let dlen := dlen?.getD clen
  reset samp
    { clen := clen, ilen := ilen, dlen := dlen, seed := seed,
      clambd := 1 / (clen : ℚ),
      ilambd := if ilen = 0 then 0 else 1 / (ilen : ℚ),
      dlambd := if dlen = 0 then 0 else 1 / (dlen : ℚ),
      k := 0, cpy_n := 0, ins_n := 0, del_n := 0,
      cpystats := Sample.empty, insstats := Sample.empty,
      delstats := Sample.empty, dat := dat, ins := ins }

/-- `ModifiedFileData.getdata`, instrumented: besides the returned chunk and
the successor state it reports which values were recorded into the three
`Sample` accumulators during the call (`none` when the copy read was empty
and nothing was recorded).  The body follows the source line by line: read
up to `cpy_n` bytes of original content; if none were read return the empty
chunk unchanged, else record the bytes actually read, append the read of
`ins_n` randomness bytes and record the requested `ins_n`, skip up to
`del_n` original bytes recording the bytes actually skipped, and sample the
next cycle. -/
def getdataAux (samp : ℕ → ℕ → ℚ → ℕ) (g : GenState) :
    (List ℕ × GenState) × Option (ℕ × ℕ × ℕ) :=
  let data := g.dat.take g.cpy_n
  if data = [] then (([], g), none)
  else
    let g1 : GenState :=
      { g with dat := g.dat.drop g.cpy_n,
               cpystats := g.cpystats.add data.length }
    let insbytes := g1.ins.take g.ins_n
    let g2 : GenState :=
      { g1 with ins := g1.ins.drop g.ins_n,
                insstats := g1.insstats.add g.ins_n }
    let skip := g2.dat.take g.del_n
    let g3 : GenState :=
      { g2 with dat := g2.dat.drop g.del_n,
                delstats := g2.delstats.add skip.length }
    ((data ++ insbytes, initcycle samp g3), some (data.length, g.ins_n, skip.length))

/-- `ModifiedFileData.getdata`: the chunk returned and the new state. -/
def getdata (samp : ℕ → ℕ → ℚ → ℕ) (g : GenState) : List ℕ × GenState :=
  (getdataAux samp g).1

/-- Drive the generator for `n` calls of `getdata`, as the `__main__` loop
does, concatenating the produced chunks; additionally collect the traces of
values recorded into the copy, insert and delete accumulators. -/
def runAux (samp : ℕ → ℕ → ℚ → ℕ) : ℕ → GenState →
    (List ℕ × GenState) × (List ℕ × List ℕ × List ℕ)
  | 0, g => (([], g), ([], [], []))
  | n + 1, g =>
    let s := getdataAux samp g
    let r := runAux samp n s.1.2
    ((s.1.1 ++ r.1.1, r.1.2),
      match s.2 with
      | none => r.2
      | some t => (t.1 :: r.2.1, t.2.1 :: r.2.2.1, t.2.2 :: r.2.2.2))

/-- The output bytes and final state after `n` calls of `getdata`. -/
def run (samp : ℕ → ℕ → ℚ → ℕ) (n : ℕ) (g : GenState) : List ℕ × GenState :=
  (runAux samp n g).1

/-- Property `inp_c`: original bytes consumed. -/
def inp_c (g : GenState) : ℕ := g.cpystats.sum + g.delstats.sum

/-- Property `tot_c`: bytes emitted. -/
def tot_c (g : GenState) : ℕ := g.cpystats.sum + g.insstats.sum

/-- Property `dup_c`: emitted bytes that are verbatim copies. -/
def dup_c (g : GenState) : ℕ := g.cpystats.sum

/-- The percentage `100.0 * self.dup_c / self.tot_c` computed inside
`ModifiedFileData.__str__`.  Python float division raises
`ZeroDivisionError` when `tot_c` is `0`; the raise is modelled as `none`. -/
def dupPct (g : GenState) : Option ℚ :=
  if tot_c g = 0 then none
  else some (100 * (dup_c g : ℚ) / (tot_c g : ℚ))

/-- The numeric value of a string of ASCII digits, most significant
first. -/
def decVal (cs : List Char) : ℕ :=
  cs.foldl (fun a c => 10 * a + (c.toNat - 48)) 0

/-- The numeric value of a nonempty string of ASCII digits; `none` when the
character list is empty or contains a non-digit (Python `int` raises
`ValueError` there). -/
def digitsVal (cs : List Char) : Option ℕ :=
  if cs = [] ∨ ¬ cs.all Char.isDigit then none
  else some (decVal cs)

/-- Python `int(arg)` on a command-line token: an optional sign followed by
a nonempty run of decimal digits; `none` models the `ValueError` raise.
(Python additionally strips surrounding whitespace and allows underscore
digit grouping; neither occurs in the inputs treated here and neither is
modelled.) -/
def pyInt (cs : List Char) : Option ℤ :=
  match cs with
  | [] => none
  | c :: rest =>
    if c = '+' then (digitsVal rest).map fun n => (n : ℤ)
    else if c = '-' then (digitsVal rest).map fun n => -(n : ℤ)
    else (digitsVal (c :: rest)).map fun n => (n : ℤ)

/-- `getlen(arg)`: `arg[-1]` (an `IndexError`, hence `none`, on the empty
string) selects the `k`/`K`, `m`/`M` or `g`/`G` multiplier applied to
`int(arg[:-1])`; with no suffix the result is `int(arg)`. -/
def getlen (arg : String) : Option ℤ :=
  match arg.data.getLast? with
  | none => none
  | some c =>
    if c = 'k' ∨ c = 'K' then (pyInt arg.data.dropLast).map fun n => n * 1024
    else if c = 'm' ∨ c = 'M' then
      (pyInt arg.data.dropLast).map fun n => n * 1024 * 1024
    else if c = 'g' ∨ c = 'G' then
      (pyInt arg.data.dropLast).map fun n => n * 1024 * 1024 * 1024
    else pyInt arg.data

/-- A cycle does nothing when the copy-phase read comes back empty: the
chunk is empty, the state untouched, nothing recorded. -/
theorem getdataAux_empty (samp : ℕ → ℕ → ℚ → ℕ) (g : GenState)
    (h : g.dat.take g.cpy_n = []) : getdataAux samp g = (([], g), none) := by
  simp [getdataAux, h]

/-- The explicit form of a cycle whose copy-phase read is non-empty. -/
theorem getdataAux_nonempty (samp : ℕ → ℕ → ℚ → ℕ) (g : GenState)
    (h : ¬ g.dat.take g.cpy_n = []) :
    getdataAux samp g =
      ((g.dat.take g.cpy_n ++ g.ins.take g.ins_n,
        initcycle samp
          { g with dat := (g.dat.drop g.cpy_n).drop g.del_n,
                   ins := g.ins.drop g.ins_n,
                   cpystats := g.cpystats.add (g.dat.take g.cpy_n).length,
                   insstats := g.insstats.add g.ins_n,
                   delstats :=
                     g.delstats.add ((g.dat.drop g.cpy_n).take g.del_n).length }),
       some ((g.dat.take g.cpy_n).length, g.ins_n,
             ((g.dat.drop g.cpy_n).take g.del_n).length)) := by
  simp [getdataAux, h]

/-- Driving the generator `n + 1` times is one `getdata` then `n` more. -/
theorem run_succ (samp : ℕ → ℕ → ℚ → ℕ) (n : ℕ) (g : GenState) :
    run samp (n + 1) g =
      ((getdata samp g).1 ++ (run samp n (getdata samp g).2).1,
       (run samp n (getdata samp g).2).2) := by
  show (runAux samp (n + 1) g).1 = _
  rw [runAux]
  rfl

/-- Driving the generator zero times does nothing. -/
theorem run_zero (samp : ℕ → ℕ → ℚ → ℕ) (g : GenState) :
    run samp 0 g = ([], g) := rfl

/-- The state after `n + 1` calls is the state after `n` calls from the
successor state. -/
theorem run_succ_state (samp : ℕ → ℕ → ℚ → ℕ) (n : ℕ) (g : GenState) :
    (run samp (n + 1) g).2 = (run samp n (getdata samp g).2).2 := by
  rw [run_succ]

/-- Trace recurrence when the first call records nothing. -/
theorem runAux_succ_none (samp : ℕ → ℕ → ℚ → ℕ) (n : ℕ) (g : GenState)
    (h : (getdataAux samp g).2 = none) :
    (runAux samp (n + 1) g).2 = (runAux samp n (getdataAux samp g).1.2).2 := by
  rw [runAux, h]

/-- Trace recurrence when the first call records the triple `t`. -/
theorem runAux_succ_some (samp : ℕ → ℕ → ℚ → ℕ) (n : ℕ) (g : GenState)
    (t : ℕ × ℕ × ℕ) (h : (getdataAux samp g).2 = some t) :
    (runAux samp (n + 1) g).2 =
      (t.1 :: (runAux samp n (getdataAux samp g).1.2).2.1,
       t.2.1 :: (runAux samp n (getdataAux samp g).1.2).2.2.1,
       t.2.2 :: (runAux samp n (getdataAux samp g).1.2).2.2.2) := by
  rw [runAux, h]

@[simp] theorem Sample.add_count (s : Sample) (v : ℕ) :
    (s.add v).count = s.count + 1 := rfl

@[simp] theorem Sample.add_sum (s : Sample) (v : ℕ) :
    (s.add v).sum = s.sum + v := rfl

@[simp] theorem Sample.add_sum2 (s : Sample) (v : ℕ) :
    (s.add v).sum2 = s.sum2 + v * v := rfl

@[simp] theorem initcycle_clen (samp : ℕ → ℕ → ℚ → ℕ) (g : GenState) :
    (initcycle samp g).clen = g.clen := rfl

@[simp] theorem initcycle_ilen (samp : ℕ → ℕ → ℚ → ℕ) (g : GenState) :
    (initcycle samp g).ilen = g.ilen := rfl

@[simp] theorem initcycle_dlen (samp : ℕ → ℕ → ℚ → ℕ) (g : GenState) :
    (initcycle samp g).dlen = g.dlen := rfl

@[simp] theorem initcycle_seed (samp : ℕ → ℕ → ℚ → ℕ) (g : GenState) :
    (initcycle samp g).seed = g.seed := rfl

@[simp] theorem initcycle_clambd (samp : ℕ → ℕ → ℚ → ℕ) (g : GenState) :
    (initcycle samp g).clambd = g.clambd := rfl

@[simp] theorem initcycle_ilambd (samp : ℕ → ℕ → ℚ → ℕ) (g : GenState) :
    (initcycle samp g).ilambd = g.ilambd := rfl

@[simp] theorem initcycle_dlambd (samp : ℕ → ℕ → ℚ → ℕ) (g : GenState) :
    (initcycle samp g).dlambd = g.dlambd := rfl

@[simp] theorem initcycle_dat (samp : ℕ → ℕ → ℚ → ℕ) (g : GenState) :
    (initcycle samp g).dat = g.dat := rfl

@[simp] theorem initcycle_ins (samp : ℕ → ℕ → ℚ → ℕ) (g : GenState) :
    (initcycle samp g).ins = g.ins := rfl

@[simp] theorem initcycle_cpystats (samp : ℕ → ℕ → ℚ → ℕ) (g : GenState) :
    (initcycle samp g).cpystats = g.cpystats := rfl

@[simp] theorem initcycle_insstats (samp : ℕ → ℕ → ℚ → ℕ) (g : GenState) :
    (initcycle samp g).insstats = g.insstats := rfl

@[simp] theorem initcycle_delstats (samp : ℕ → ℕ → ℚ → ℕ) (g : GenState) :
    (initcycle samp g).delstats = g.delstats := rfl

@[simp] theorem initcycle_cpy_n (samp : ℕ → ℕ → ℚ → ℕ) (g : GenState) :
    (initcycle samp g).cpy_n = max 1 (samp g.seed g.k g.clambd) := rfl

@[simp] theorem initcycle_ins_n (samp : ℕ → ℕ → ℚ → ℕ) (g : GenState) :
    (initcycle samp g).ins_n =
      if g.ilen = 0 then 0 else samp g.seed (g.k + 1) g.ilambd := rfl

@[simp] theorem initcycle_del_n (samp : ℕ → ℕ → ℚ → ℕ) (g : GenState) :
    (initcycle samp g).del_n =
      if g.dlen = 0 then 0
      else samp g.seed ((if g.ilen = 0 then g.k + 1 else g.k + 1 + 1)) g.dlambd :=
  rfl

@[simp] theorem initcycle_k (samp : ℕ → ℕ → ℚ → ℕ) (g : GenState) :
    (initcycle samp g).k =
      if g.dlen = 0 then (if g.ilen = 0 then g.k + 1 else g.k + 1 + 1)
      else (if g.ilen = 0 then g.k + 1 else g.k + 1 + 1) + 1 := rfl

/-- One `getdata` call never changes the configuration fields: means,
rates and seed. -/
theorem getdataAux_conf (samp : ℕ → ℕ → ℚ → ℕ) (g : GenState) :
    (getdataAux samp g).1.2.clen = g.clen ∧
    (getdataAux samp g).1.2.ilen = g.ilen ∧
    (getdataAux samp g).1.2.dlen = g.dlen ∧
    (getdataAux samp g).1.2.seed = g.seed ∧
    (getdataAux samp g).1.2.clambd = g.clambd ∧
    (getdataAux samp g).1.2.ilambd = g.ilambd ∧
    (getdataAux samp g).1.2.dlambd = g.dlambd := by
  by_cases h : g.dat.take g.cpy_n = []
  · rw [getdataAux_empty samp g h]
    exact ⟨rfl, rfl, rfl, rfl, rfl, rfl, rfl⟩
  · rw [getdataAux_nonempty samp g h]
    simp [initcycle]

/-- A whole run never changes the configuration fields. -/
theorem run_conf (samp : ℕ → ℕ → ℚ → ℕ) (n : ℕ) (g : GenState) :
    (run samp n g).2.clen = g.clen ∧
    (run samp n g).2.ilen = g.ilen ∧
    (run samp n g).2.dlen = g.dlen ∧
    (run samp n g).2.seed = g.seed ∧
    (run samp n g).2.clambd = g.clambd ∧
    (run samp n g).2.ilambd = g.ilambd ∧
    (run samp n g).2.dlambd = g.dlambd := by
  induction n generalizing g with
  | zero => exact ⟨rfl, rfl, rfl, rfl, rfl, rfl, rfl⟩
  | succ n ih =>
    rw [run_succ_state]
    have hg := getdataAux_conf samp g
    have hr := ih (getdata samp g).2
    exact ⟨hr.1.trans hg.1, hr.2.1.trans hg.2.1, hr.2.2.1.trans hg.2.2.1,
           hr.2.2.2.1.trans hg.2.2.2.1, hr.2.2.2.2.1.trans hg.2.2.2.2.1,
           hr.2.2.2.2.2.1.trans hg.2.2.2.2.2.1,
           hr.2.2.2.2.2.2.trans hg.2.2.2.2.2.2⟩

/-- The state `reset` produces is determined by the configuration fields
alone, together with whatever the two stream fields are set to. -/
theorem reset_congr (samp : ℕ → ℕ → ℚ → ℕ) (g h : GenState) (D I : List ℕ)
    (e1 : g.clen = h.clen) (e2 : g.ilen = h.ilen) (e3 : g.dlen = h.dlen)
    (e4 : g.seed = h.seed) (e5 : g.clambd = h.clambd)
    (e6 : g.ilambd = h.ilambd) (e7 : g.dlambd = h.dlambd) :
    { reset samp g with dat := D, ins := I } =
      { reset samp h with dat := D, ins := I } := by
  ext <;> simp [reset, e1, e2, e3, e4, e5, e6, e7]

/-- Resetting a freshly constructed generator, with the streams restored to
their initial contents, gives back the freshly constructed state. -/
theorem mkData_reset_fix (samp : ℕ → ℕ → ℚ → ℕ) (D I : List ℕ) (clen : ℕ)
    (il dl : Option ℕ) (seed : ℕ) :
    { reset samp (mkData samp D clen il dl seed I) with dat := D, ins := I } =
      mkData samp D clen il dl seed I := by
  ext <;> simp [mkData, reset]

/-- C1.  Determinism: for a fixed seed, fixed means `(clen, ilen, dlen)` and
fixed original-content bytes `D` (and fixed randomness stream `I` and draw
function `samp`), two independent runs of the generator produce identical
output bytes and identical final states — in particular identical final
copy/insert/delete counts and sums; and resetting the generator after any
number `m` of calls, with the two input streams restored, reproduces the
run of a freshly constructed generator exactly. -/
theorem c1_determinism (samp : ℕ → ℕ → ℚ → ℕ) (clen : ℕ) (il dl : Option ℕ)
    (seed : ℕ) (D I : List ℕ) (n m : ℕ) :
    run samp n (mkData samp D clen il dl seed I) =
      run samp n (mkData samp D clen il dl seed I) ∧
    run samp n
        { reset samp (run samp m (mkData samp D clen il dl seed I)).2 with
          dat := D, ins := I } =
      run samp n (mkData samp D clen il dl seed I) := by
  refine ⟨rfl, ?_⟩
  obtain ⟨h1, h2, h3, h4, h5, h6, h7⟩ :=
    run_conf samp m (mkData samp D clen il dl seed I)
  congr 1
  calc { reset samp (run samp m (mkData samp D clen il dl seed I)).2 with
          dat := D, ins := I }
      = { reset samp (mkData samp D clen il dl seed I) with
          dat := D, ins := I } :=
        reset_congr samp _ _ D I h1 h2 h3 h4 h5 h6 h7
    _ = mkData samp D clen il dl seed I := mkData_reset_fix samp D I clen il dl seed

/-- Across a run, each accumulator's `sum` field grows by exactly the sum
of the values recorded into it. -/
theorem runAux_sums (samp : ℕ → ℕ → ℚ → ℕ) (n : ℕ) (g : GenState) :
    (runAux samp n g).1.2.cpystats.sum =
      g.cpystats.sum + (runAux samp n g).2.1.sum ∧
    (runAux samp n g).1.2.insstats.sum =
      g.insstats.sum + (runAux samp n g).2.2.1.sum ∧
    (runAux samp n g).1.2.delstats.sum =
      g.delstats.sum + (runAux samp n g).2.2.2.sum := by
  induction n generalizing g with
  | zero => simp [runAux]
  | succ n ih =>
    have hstate : (runAux samp (n + 1) g).1.2 =
        (runAux samp n (getdataAux samp g).1.2).1.2 := run_succ_state samp n g
    by_cases h : g.dat.take g.cpy_n = []
    · have he := getdataAux_empty samp g h
      have hrec : (getdataAux samp g).2 = none := by rw [he]
      have hst : (getdataAux samp g).1.2 = g := by rw [he]
      have htr := runAux_succ_none samp n g hrec
      obtain ⟨i1, i2, i3⟩ := ih (getdataAux samp g).1.2
      rw [hst] at i1 i2 i3
      rw [hstate, hst, htr, hst]
      exact ⟨i1, i2, i3⟩
    · have he := getdataAux_nonempty samp g h
      have hrec : (getdataAux samp g).2 =
          some ((g.dat.take g.cpy_n).length, g.ins_n,
                ((g.dat.drop g.cpy_n).take g.del_n).length) := by rw [he]
      have hst : (getdataAux samp g).1.2 =
          initcycle samp
            { g with dat := (g.dat.drop g.cpy_n).drop g.del_n,
                     ins := g.ins.drop g.ins_n,
                     cpystats := g.cpystats.add (g.dat.take g.cpy_n).length,
                     insstats := g.insstats.add g.ins_n,
                     delstats :=
                       g.delstats.add
                         ((g.dat.drop g.cpy_n).take g.del_n).length } := by
        rw [he]
      have htr := runAux_succ_some samp n g _ hrec
      obtain ⟨i1, i2, i3⟩ := ih (getdataAux samp g).1.2
      rw [hst] at i1 i2 i3
      simp only [initcycle_cpystats, initcycle_insstats, initcycle_delstats,
        Sample.add_sum] at i1 i2 i3
      rw [hstate, htr, hst]
      simp only [initcycle_cpystats, initcycle_insstats, initcycle_delstats,
        Sample.add_sum, List.sum_cons]
      refine ⟨?_, ?_, ?_⟩ <;> omega

/-- C2.  Byte accounting: at every point after construction (after any
number `n` of `getdata` calls), `inp_c` equals the sum of all copy-run
lengths recorded into `cpystats` plus the sum of all delete-run lengths
recorded into `delstats`, and `tot_c` equals the sum of all recorded
copy-run lengths plus the sum of all recorded insert-run lengths, exactly,
in integer arithmetic.  The recorded lengths are the trace collected by
`runAux` — the exact arguments passed to `Sample.add`. -/
theorem c2_byte_accounting (samp : ℕ → ℕ → ℚ → ℕ) (clen : ℕ)
    (il dl : Option ℕ) (seed : ℕ) (D I : List ℕ) (n : ℕ) :
    inp_c (runAux samp n (mkData samp D clen il dl seed I)).1.2 =
      (runAux samp n (mkData samp D clen il dl seed I)).2.1.sum +
        (runAux samp n (mkData samp D clen il dl seed I)).2.2.2.sum ∧
    tot_c (runAux samp n (mkData samp D clen il dl seed I)).1.2 =
      (runAux samp n (mkData samp D clen il dl seed I)).2.1.sum +
        (runAux samp n (mkData samp D clen il dl seed I)).2.2.1.sum := by
  obtain ⟨i1, i2, i3⟩ := runAux_sums samp n (mkData samp D clen il dl seed I)
  have hc : (mkData samp D clen il dl seed I).cpystats.sum = 0 := rfl
  have hi : (mkData samp D clen il dl seed I).insstats.sum = 0 := rfl
  have hd : (mkData samp D clen il dl seed I).delstats.sum = 0 := rfl
  unfold inp_c tot_c
  omega

/-- `cpy_n ≥ 1` is preserved by every `getdata` call (an idle call keeps the
old value, a productive call resamples through `max 1 ...`). -/
theorem getdataAux_cpy_n_pos (samp : ℕ → ℕ → ℚ → ℕ) (g : GenState)
    (h : 1 ≤ g.cpy_n) : 1 ≤ (getdataAux samp g).1.2.cpy_n := by
  by_cases hd : g.dat.take g.cpy_n = []
  · rw [getdataAux_empty samp g hd]
    exact h
  · rw [getdataAux_nonempty samp g hd]
    simp

/-- `cpy_n ≥ 1` is preserved by whole runs. -/
theorem run_cpy_n_pos (samp : ℕ → ℕ → ℚ → ℕ) (m : ℕ) (g : GenState)
    (h : 1 ≤ g.cpy_n) : 1 ≤ (run samp m g).2.cpy_n := by
  induction m generalizing g with
  | zero => exact h
  | succ m ih =>
    rw [run_succ_state]
    exact ih _ (getdataAux_cpy_n_pos samp g h)

/-- Progress: since every productive call consumes at least one original
byte, after as many calls as there are original bytes left the
original-content source is exhausted. -/
theorem run_dat_nil (samp : ℕ → ℕ → ℚ → ℕ) (n : ℕ) (g : GenState)
    (h1 : 1 ≤ g.cpy_n) (h2 : g.dat.length ≤ n) :
    (run samp n g).2.dat = [] := by
  induction n generalizing g with
  | zero =>
    rw [run_zero]
    exact List.eq_nil_of_length_eq_zero (Nat.le_zero.mp h2)
  | succ n ih =>
    rw [run_succ_state]
    by_cases hd : g.dat.take g.cpy_n = []
    · have hnil : g.dat = [] := by
        rcases List.take_eq_nil_iff.mp hd with h0 | h0
        · omega
        · exact h0
      have hst : (getdataAux samp g).1.2 = g := by
        rw [getdataAux_empty samp g hd]
      rw [show (getdata samp g).2 = (getdataAux samp g).1.2 from rfl, hst]
      exact ih g h1 (by rw [hnil]; exact Nat.zero_le n)
    · have hne : g.dat ≠ [] := by
        intro h0
        exact hd (by rw [h0, List.take_nil])
      have hst : (getdataAux samp g).1.2 =
          initcycle samp
            { g with dat := (g.dat.drop g.cpy_n).drop g.del_n,
                     ins := g.ins.drop g.ins_n,
                     cpystats := g.cpystats.add (g.dat.take g.cpy_n).length,
                     insstats := g.insstats.add g.ins_n,
                     delstats :=
                       g.delstats.add
                         ((g.dat.drop g.cpy_n).take g.del_n).length } := by
        rw [getdataAux_nonempty samp g hd]
      rw [show (getdata samp g).2 = (getdataAux samp g).1.2 from rfl, hst]
      refine ih _ (by simp) ?_
      have hlen : 1 ≤ g.dat.length := List.length_pos.mpr hne
      simp only [initcycle_dat, List.length_drop]
      omega

/-- C3.  Termination: for every copy mean `clen > 0` and every finite,
non-empty original content `D`, the generator reaches the empty-result
end-of-stream signal within `D.length` calls of `getdata`; the reason is
that `cpy_n ≥ 1` after every call (first conjunct), so every productive
call strictly advances the read position of the source. -/
theorem c3_termination (samp : ℕ → ℕ → ℚ → ℕ) (clen : ℕ) (il dl : Option ℕ)
    (seed : ℕ) (D I : List ℕ) (m : ℕ) (_hclen : 0 < clen) (_hD : D ≠ []) :
    1 ≤ (run samp m (mkData samp D clen il dl seed I)).2.cpy_n ∧
    (run samp D.length (mkData samp D clen il dl seed I)).2.dat = [] ∧
    getdata samp (run samp D.length (mkData samp D clen il dl seed I)).2 =
      ([], (run samp D.length (mkData samp D clen il dl seed I)).2) := by
  have hpos : 1 ≤ (mkData samp D clen il dl seed I).cpy_n := by
    simp [mkData, reset]
  have hdat : (mkData samp D clen il dl seed I).dat = D := rfl
  have hnil := run_dat_nil samp D.length (mkData samp D clen il dl seed I)
    hpos (by rw [hdat])
  refine ⟨run_cpy_n_pos samp m _ hpos, hnil, ?_⟩
  show (getdataAux samp _).1 = _
  rw [getdataAux_empty samp _ (by rw [hnil, List.take_nil])]

/-- Witness for C3 at a concrete instance. -/
theorem c3_termination_witness :
    1 ≤ (run (fun _ i _ => i + 2) 2
          (mkData (fun _ i _ => i + 2) [4, 5, 6] 3 none none 1
            [9, 9, 9, 9, 9, 9, 9, 9])).2.cpy_n ∧
    (run (fun _ i _ => i + 2) 3
        (mkData (fun _ i _ => i + 2) [4, 5, 6] 3 none none 1
          [9, 9, 9, 9, 9, 9, 9, 9])).2.dat = [] ∧
    getdata (fun _ i _ => i + 2)
        (run (fun _ i _ => i + 2) 3
          (mkData (fun _ i _ => i + 2) [4, 5, 6] 3 none none 1
            [9, 9, 9, 9, 9, 9, 9, 9])).2 =
      ([], (run (fun _ i _ => i + 2) 3
            (mkData (fun _ i _ => i + 2) [4, 5, 6] 3 none none 1
              [9, 9, 9, 9, 9, 9, 9, 9])).2) :=
  c3_termination (fun _ i _ => i + 2) 3 none none 1 [4, 5, 6]
    [9, 9, 9, 9, 9, 9, 9, 9] 2 (by decide) (by decide)

/-- C4.  End-of-stream idempotence: if a `getdata` call returned the empty
chunk, the generator state is completely unchanged by that call — so no
statistics accumulator was modified and the pending cycle lengths
`(cpy_n, ins_n, del_n)` were not resampled — and every further call again
returns the empty chunk with the state unchanged. -/
theorem c4_idempotence (samp : ℕ → ℕ → ℚ → ℕ) (g g' : GenState)
    (h : getdata samp g = ([], g')) :
    g' = g ∧ getdata samp g' = ([], g') := by
  by_cases hd : g.dat.take g.cpy_n = []
  · have hg : getdata samp g = ([], g) := by
      rw [getdata, getdataAux_empty samp g hd]
    rw [hg] at h
    have he : g = g' := congrArg Prod.snd h
    exact ⟨he.symm, by rw [← he, hg]⟩
  · exfalso
    have hfst : (getdata samp g).1 =
        g.dat.take g.cpy_n ++ g.ins.take g.ins_n := by
      rw [getdata, getdataAux_nonempty samp g hd]
    have h1 : ([] : List ℕ) = g.dat.take g.cpy_n ++ g.ins.take g.ins_n := by
      rw [← hfst, h]
    exact hd (List.append_eq_nil.mp h1.symm).1

/-- Witness for C4: a generator over empty original content returns the
empty chunk at once, and the theorem applies to it. -/
theorem c4_idempotence_witness :
    mkData (fun _ _ _ => 0) [] 1 none none 1 [] =
      mkData (fun _ _ _ => 0) [] 1 none none 1 [] ∧
    getdata (fun _ _ _ => 0) (mkData (fun _ _ _ => 0) [] 1 none none 1 []) =
      ([], mkData (fun _ _ _ => 0) [] 1 none none 1 []) :=
  c4_idempotence (fun _ _ _ => 0)
    (mkData (fun _ _ _ => 0) [] 1 none none 1 [])
    (mkData (fun _ _ _ => 0) [] 1 none none 1 []) (by rfl)

/-- C5 counterexample.  The claim says a short read from the randomness
source makes the operation fail with a hard error.  It does not: at this
concrete input the randomness source holds 1 byte while `ins_n = 5`, and
`getdata` returns normally with a chunk of 6 bytes (5 copied + the 1
available random byte, short of the `5 + 5` a full cycle would emit) while
still recording the requested length 5 into the insert statistics. -/
theorem c5_counterexample :
    (mkData (fun _ _ _ => 5) [1, 2, 3, 4, 5, 6] 4 none none 1 [9]).ins_n = 5 ∧
    (mkData (fun _ _ _ => 5) [1, 2, 3, 4, 5, 6] 4 none none 1 [9]).ins.length
      = 1 ∧
    (getdata (fun _ _ _ => 5)
        (mkData (fun _ _ _ => 5) [1, 2, 3, 4, 5, 6] 4 none none 1 [9])).1
      = [1, 2, 3, 4, 5, 9] ∧
    (getdata (fun _ _ _ => 5)
        (mkData (fun _ _ _ => 5) [1, 2, 3, 4, 5, 6] 4 none none 1 [9])).1.length
      < 5 + 5 ∧
    (getdata (fun _ _ _ => 5)
        (mkData (fun _ _ _ => 5) [1, 2, 3, 4, 5, 6] 4 none none 1
          [9])).2.insstats.sum = 5 := by
  refine ⟨rfl, rfl, rfl, by decide, rfl⟩

/-- C5 as amended: when the randomness source returns fewer bytes than the
requested `ins_n` during a productive cycle, `getdata` silently emits a
chunk containing only the available random bytes — shorter than the copy
read plus `ins_n` — and still records the full requested `ins_n` into the
insert statistics; no error of any kind is raised. -/
theorem c5_short_insert (samp : ℕ → ℕ → ℚ → ℕ) (g : GenState)
    (h1 : ¬ g.dat.take g.cpy_n = []) (h2 : g.ins.length < g.ins_n) :
    (getdata samp g).1.length = (g.dat.take g.cpy_n).length + g.ins.length ∧
    (getdata samp g).1.length < (g.dat.take g.cpy_n).length + g.ins_n ∧
    (getdata samp g).2.insstats = g.insstats.add g.ins_n := by
  have he := getdataAux_nonempty samp g h1
  have hfst : (getdata samp g).1 =
      g.dat.take g.cpy_n ++ g.ins.take g.ins_n := by rw [getdata, he]
  have hlen : (getdata samp g).1.length =
      (g.dat.take g.cpy_n).length + g.ins.length := by
    rw [hfst]
    simp only [List.length_append, List.length_take]
    omega
  refine ⟨hlen, by omega, ?_⟩
  rw [getdata, he]
  simp

/-- Witness for C5 as amended, at the counterexample's concrete input. -/
theorem c5_short_insert_witness :
    (getdata (fun _ _ _ => 5)
        (mkData (fun _ _ _ => 5) [1, 2, 3, 4, 5, 6] 4 none none 1 [9])).1.length
      = ((mkData (fun _ _ _ => 5) [1, 2, 3, 4, 5, 6] 4 none none 1
            [9]).dat.take
          (mkData (fun _ _ _ => 5) [1, 2, 3, 4, 5, 6] 4 none none 1
            [9]).cpy_n).length +
        (mkData (fun _ _ _ => 5) [1, 2, 3, 4, 5, 6] 4 none none 1
          [9]).ins.length ∧
    (getdata (fun _ _ _ => 5)
        (mkData (fun _ _ _ => 5) [1, 2, 3, 4, 5, 6] 4 none none 1 [9])).1.length
      < ((mkData (fun _ _ _ => 5) [1, 2, 3, 4, 5, 6] 4 none none 1
            [9]).dat.take
          (mkData (fun _ _ _ => 5) [1, 2, 3, 4, 5, 6] 4 none none 1
            [9]).cpy_n).length +
        (mkData (fun _ _ _ => 5) [1, 2, 3, 4, 5, 6] 4 none none 1 [9]).ins_n ∧
    (getdata (fun _ _ _ => 5)
          (mkData (fun _ _ _ => 5) [1, 2, 3, 4, 5, 6] 4 none none 1
            [9])).2.insstats =
      (mkData (fun _ _ _ => 5) [1, 2, 3, 4, 5, 6] 4 none none 1
          [9]).insstats.add
        (mkData (fun _ _ _ => 5) [1, 2, 3, 4, 5, 6] 4 none none 1 [9]).ins_n :=
  c5_short_insert (fun _ _ _ => 5)
    (mkData (fun _ _ _ => 5) [1, 2, 3, 4, 5, 6] 4 none none 1 [9])
    (by decide) (by decide)

/-- A generator whose original-content stream is empty is left completely
unchanged by any number of `getdata` calls. -/
theorem run_dat_empty_fix (samp : ℕ → ℕ → ℚ → ℕ) (n : ℕ) (g : GenState)
    (h : g.dat = []) : (run samp n g).2 = g := by
  induction n with
  | zero => rfl
  | succ n ih =>
    rw [run_succ_state]
    have hst : (getdata samp g).2 = g := by
      rw [getdata, getdataAux_empty samp g (by rw [h, List.take_nil])]
    rw [hst]
    exact ih

/-- C6 counterexample.  Running the generator over empty original content
(as `__main__` does when stdin is empty) leaves `tot_c = 0`, and the
percentage computation of `__str__` is not guarded: it is the Python
expression `100.0 * self.dup_c / self.tot_c`, which raises
`ZeroDivisionError` (modelled by `dupPct` returning `none`) instead of
producing the report. -/
theorem c6_counterexample :
    tot_c (run (fun _ _ _ => 3) 5
        (mkData (fun _ _ _ => 3) [] 100 none none 1 [9, 9, 9])).2 = 0 ∧
    dupPct (run (fun _ _ _ => 3) 5
        (mkData (fun _ _ _ => 3) [] 100 none none 1 [9, 9, 9])).2 = none := by
  exact ⟨rfl, rfl⟩

/-- C6 as amended: the duplicate-ratio computation is NOT guarded when
`tot_c` is 0.  After a run over empty original content all statistics
counts are 0 and `tot_c = 0`, and evaluating the report's percentage raises
`ZeroDivisionError` (`dupPct` is `none`), so producing the report crashes
rather than printing. -/
theorem c6_unguarded (samp : ℕ → ℕ → ℚ → ℕ) (clen : ℕ) (il dl : Option ℕ)
    (seed : ℕ) (I : List ℕ) (n : ℕ) :
    (run samp n (mkData samp [] clen il dl seed I)).2.cpystats.count = 0 ∧
    (run samp n (mkData samp [] clen il dl seed I)).2.insstats.count = 0 ∧
    (run samp n (mkData samp [] clen il dl seed I)).2.delstats.count = 0 ∧
    tot_c (run samp n (mkData samp [] clen il dl seed I)).2 = 0 ∧
    dupPct (run samp n (mkData samp [] clen il dl seed I)).2 = none := by
  have hfix : (run samp n (mkData samp [] clen il dl seed I)).2 =
      mkData samp [] clen il dl seed I :=
    run_dat_empty_fix samp n _ rfl
  rw [hfix]
  exact ⟨rfl, rfl, rfl, rfl, rfl⟩

/-- C7 counterexample.  The claim says that with `clen = 100`,
`ilen = 50` and `dlen` omitted the effective delete mean is `50`; in the
code (`if dlen is None: dlen = clen`) it is `100`. -/
theorem c7_counterexample :
    (mkData (fun _ _ _ => 0) [] 100 (some 50) none 1 []).dlen = 100 ∧
    ¬ (mkData (fun _ _ _ => 0) [] 100 (some 50) none 1 []).dlen = 50 :=
  ⟨rfl, by decide⟩

/-- C7 as amended: in the constructor an omitted `ilen` defaults to `clen`,
and an omitted `dlen` also defaults to `clen` (not to `ilen`); in
particular, constructing with `clen = a`, `ilen = b` and `dlen` omitted
yields an effective delete mean equal to `a`. -/
theorem c7_defaults (samp : ℕ → ℕ → ℚ → ℕ) (D I : List ℕ)
    (clen ilen seed : ℕ) :
    (mkData samp D clen (some ilen) none seed I).ilen = ilen ∧
    (mkData samp D clen (some ilen) none seed I).dlen = clen ∧
    (mkData samp D clen none none seed I).ilen = clen ∧
    (mkData samp D clen none none seed I).dlen = clen :=
  ⟨rfl, rfl, rfl, rfl⟩

/-- If the insert mean is 0 and the current pending insert length is 0,
then over any run the pending insert length stays 0, the randomness source
is never consumed, the insert sum never grows, and every value recorded
into the insert statistics is 0. -/
theorem runAux_ilen0 (samp : ℕ → ℕ → ℚ → ℕ) (n : ℕ) (g : GenState)
    (h0 : g.ilen = 0) (h1 : g.ins_n = 0) :
    (runAux samp n g).1.2.ins_n = 0 ∧
    (runAux samp n g).1.2.ins = g.ins ∧
    (runAux samp n g).1.2.insstats.sum = g.insstats.sum ∧
    ((runAux samp n g).2.2.1.all fun x => x == 0) = true := by
  induction n generalizing g with
  | zero => exact ⟨h1, rfl, rfl, rfl⟩
  | succ n ih =>
    have hstate : (runAux samp (n + 1) g).1.2 =
        (runAux samp n (getdataAux samp g).1.2).1.2 := run_succ_state samp n g
    by_cases hd : g.dat.take g.cpy_n = []
    · have he := getdataAux_empty samp g hd
      have hrec : (getdataAux samp g).2 = none := by rw [he]
      have hst : (getdataAux samp g).1.2 = g := by rw [he]
      have htr := runAux_succ_none samp n g hrec
      obtain ⟨i1, i2, i3, i4⟩ := ih g h0 h1
      rw [hstate, htr, hst]
      exact ⟨i1, i2, i3, i4⟩
    · have he := getdataAux_nonempty samp g hd
      have hrec : (getdataAux samp g).2 =
          some ((g.dat.take g.cpy_n).length, g.ins_n,
                ((g.dat.drop g.cpy_n).take g.del_n).length) := by rw [he]
      have hst : (getdataAux samp g).1.2 =
          initcycle samp
            { g with dat := (g.dat.drop g.cpy_n).drop g.del_n,
                     ins := g.ins.drop g.ins_n,
                     cpystats := g.cpystats.add (g.dat.take g.cpy_n).length,
                     insstats := g.insstats.add g.ins_n,
                     delstats :=
                       g.delstats.add
                         ((g.dat.drop g.cpy_n).take g.del_n).length } := by
        rw [he]
      have htr := runAux_succ_some samp n g _ hrec
      obtain ⟨i1, i2, i3, i4⟩ := ih (getdataAux samp g).1.2
        (by rw [hst]; simpa using h0)
        (by rw [hst]; simp [h0])
      rw [hstate, htr]
      refine ⟨i1, ?_, ?_, ?_⟩
      · rw [i2, hst]
        simp [h1]
      · rw [i3, hst]
        simp [h1]
      · simp only [List.all_cons, h1]
        simpa using i4

/-- If the delete mean is 0 and the current pending delete length is 0,
then over any run the pending delete length stays 0, the delete sum never
grows, and every value recorded into the delete statistics is 0. -/
theorem runAux_dlen0 (samp : ℕ → ℕ → ℚ → ℕ) (n : ℕ) (g : GenState)
    (h0 : g.dlen = 0) (h1 : g.del_n = 0) :
    (runAux samp n g).1.2.del_n = 0 ∧
    (runAux samp n g).1.2.delstats.sum = g.delstats.sum ∧
    ((runAux samp n g).2.2.2.all fun x => x == 0) = true := by
  induction n generalizing g with
  | zero => exact ⟨h1, rfl, rfl⟩
  | succ n ih =>
    have hstate : (runAux samp (n + 1) g).1.2 =
        (runAux samp n (getdataAux samp g).1.2).1.2 := run_succ_state samp n g
    by_cases hd : g.dat.take g.cpy_n = []
    · have he := getdataAux_empty samp g hd
      have hrec : (getdataAux samp g).2 = none := by rw [he]
      have hst : (getdataAux samp g).1.2 = g := by rw [he]
      have htr := runAux_succ_none samp n g hrec
      obtain ⟨i1, i2, i3⟩ := ih g h0 h1
      rw [hstate, htr, hst]
      exact ⟨i1, i2, i3⟩
    · have he := getdataAux_nonempty samp g hd
      have hrec : (getdataAux samp g).2 =
          some ((g.dat.take g.cpy_n).length, g.ins_n,
                ((g.dat.drop g.cpy_n).take g.del_n).length) := by rw [he]
      have hst : (getdataAux samp g).1.2 =
          initcycle samp
            { g with dat := (g.dat.drop g.cpy_n).drop g.del_n,
                     ins := g.ins.drop g.ins_n,
                     cpystats := g.cpystats.add (g.dat.take g.cpy_n).length,
                     insstats := g.insstats.add g.ins_n,
                     delstats :=
                       g.delstats.add
                         ((g.dat.drop g.cpy_n).take g.del_n).length } := by
        rw [he]
      have htr := runAux_succ_some samp n g _ hrec
      obtain ⟨i1, i2, i3⟩ := ih (getdataAux samp g).1.2
        (by rw [hst]; simpa using h0)
        (by rw [hst]; simp [h0])
      rw [hstate, htr]
      refine ⟨i1, ?_, ?_⟩
      · rw [i2, hst]
        simp [h1]
      · simp only [List.all_cons, h1]
        simpa using i3

/-- C8.  Disabled phases: constructing with insert mean 0 gives a pending
insert length of 0 in every cycle (the `and` short-circuit never even draws
from the sampler), every value recorded into the insert statistics is 0,
and the randomness source is never consumed — the output can contain no
randomness-source bytes; analogously, constructing with delete mean 0 gives
a pending delete length of 0 in every cycle and only 0-valued delete
records. -/
theorem c8_disabled_phase (samp : ℕ → ℕ → ℚ → ℕ) (clen : ℕ)
    (il dl : Option ℕ) (seed : ℕ) (D I : List ℕ) (n : ℕ) :
    (runAux samp n (mkData samp D clen (some 0) dl seed I)).1.2.ins_n = 0 ∧
    ((runAux samp n (mkData samp D clen (some 0) dl seed I)).2.2.1.all
      fun x => x == 0) = true ∧
    (runAux samp n (mkData samp D clen (some 0) dl seed I)).1.2.insstats.sum
      = 0 ∧
    (runAux samp n (mkData samp D clen (some 0) dl seed I)).1.2.ins = I ∧
    (runAux samp n (mkData samp D clen il (some 0) seed I)).1.2.del_n = 0 ∧
    ((runAux samp n (mkData samp D clen il (some 0) seed I)).2.2.2.all
      fun x => x == 0) = true ∧
    (runAux samp n (mkData samp D clen il (some 0) seed I)).1.2.delstats.sum
      = 0 := by
  obtain ⟨a1, a2, a3, a4⟩ :=
    runAux_ilen0 samp n (mkData samp D clen (some 0) dl seed I) rfl rfl
  obtain ⟨b1, b2, b3⟩ :=
    runAux_dlen0 samp n (mkData samp D clen il (some 0) seed I) rfl rfl
  exact ⟨a1, a4, a3.trans rfl, a2.trans rfl, b1, b3, b2.trans rfl⟩

/-- An ASCII digit is none of the six size-suffix letters. -/
theorem digit_not_suffix (c : Char) (h : c.isDigit = true) :
    ¬(c = 'k' ∨ c = 'K') ∧ ¬(c = 'm' ∨ c = 'M') ∧ ¬(c = 'g' ∨ c = 'G') := by
  refine ⟨?_, ?_, ?_⟩ <;> rintro (rfl | rfl) <;> revert h <;> decide

/-- `int()` of a nonempty all-digit token is its decimal value. -/
theorem pyInt_digits (cs : List Char) (h1 : cs ≠ [])
    (h2 : cs.all Char.isDigit = true) : pyInt cs = some ((decVal cs : ℤ)) := by
  cases cs with
  | nil => exact absurd rfl h1
  | cons a l =>
    have ha : a.isDigit = true :=
      List.all_eq_true.mp h2 a (List.mem_cons_self a l)
    have hap : ¬a = '+' := by
      intro h0
      rw [h0] at ha
      exact absurd ha (by decide)
    have ham : ¬a = '-' := by
      intro h0
      rw [h0] at ha
      exact absurd ha (by decide)
    rw [pyInt, if_neg hap, if_neg ham, digitsVal, if_neg (by simp [h2])]
    rfl

/-- When the token is nonempty, `getlen` reduces to the suffix test on its
last character. -/
theorem getlen_eq (arg : String) (c : Char) (h : arg.data.getLast? = some c) :
    getlen arg =
      (if c = 'k' ∨ c = 'K' then
        (pyInt arg.data.dropLast).map fun n => n * 1024
      else if c = 'm' ∨ c = 'M' then
        (pyInt arg.data.dropLast).map fun n => n * 1024 * 1024
      else if c = 'g' ∨ c = 'G' then
        (pyInt arg.data.dropLast).map fun n => n * 1024 * 1024 * 1024
      else pyInt arg.data) := by
  rw [getlen, h]

/-- C9.  `getlen` parses a decimal token with an optional size suffix: for
every nonempty all-digit string `s` with decimal value `v = decVal s.data`,
`getlen s = v`, appending `k`/`K` multiplies by 1024, `m`/`M` by 1024²,
`g`/`G` by 1024³; in particular `"10k" ↦ 10240`, `"2m" ↦ 2097152`,
`"1g" ↦ 1073741824` and `"500" ↦ 500`. -/
theorem c9_getlen (s : String) (h1 : s.data ≠ [])
    (h2 : s.data.all Char.isDigit = true) :
    getlen "10k" = some 10240 ∧ getlen "2m" = some 2097152 ∧
    getlen "1g" = some 1073741824 ∧ getlen "500" = some 500 ∧
    getlen s = some ((decVal s.data : ℤ)) ∧
    getlen (s.push 'k') = some ((decVal s.data : ℤ) * 1024) ∧
    getlen (s.push 'K') = some ((decVal s.data : ℤ) * 1024) ∧
    getlen (s.push 'm') = some ((decVal s.data : ℤ) * 1024 * 1024) ∧
    getlen (s.push 'M') = some ((decVal s.data : ℤ) * 1024 * 1024) ∧
    getlen (s.push 'g') = some ((decVal s.data : ℤ) * 1024 * 1024 * 1024) ∧
    getlen (s.push 'G') = some ((decVal s.data : ℤ) * 1024 * 1024 * 1024) := by
  have hp := pyInt_digits s.data h1 h2
  have hlast := List.getLast?_eq_getLast s.data h1
  have hd : (s.data.getLast h1).isDigit = true :=
    List.all_eq_true.mp h2 _ (List.getLast_mem h1)
  obtain ⟨n1, n2, n3⟩ := digit_not_suffix _ hd
  refine ⟨by decide, by decide, by decide, by decide, ?_, ?_, ?_, ?_, ?_, ?_, ?_⟩
  · rw [getlen_eq s _ hlast, if_neg n1, if_neg n2, if_neg n3, hp]
  · rw [getlen_eq (s.push 'k') 'k'
          (by rw [String.data_push, List.getLast?_concat]),
        if_pos (Or.inl rfl), String.data_push, List.dropLast_concat, hp]
    rfl
  · rw [getlen_eq (s.push 'K') 'K'
          (by rw [String.data_push, List.getLast?_concat]),
        if_pos (Or.inr rfl), String.data_push, List.dropLast_concat, hp]
    rfl
  · rw [getlen_eq (s.push 'm') 'm'
          (by rw [String.data_push, List.getLast?_concat]),
        if_neg (by decide), if_pos (Or.inl rfl), String.data_push,
        List.dropLast_concat, hp]
    rfl
  · rw [getlen_eq (s.push 'M') 'M'
          (by rw [String.data_push, List.getLast?_concat]),
        if_neg (by decide), if_pos (Or.inr rfl), String.data_push,
        List.dropLast_concat, hp]
    rfl
  · rw [getlen_eq (s.push 'g') 'g'
          (by rw [String.data_push, List.getLast?_concat]),
        if_neg (by decide), if_neg (by decide), if_pos (Or.inl rfl),
        String.data_push, List.dropLast_concat, hp]
    rfl
  · rw [getlen_eq (s.push 'G') 'G'
          (by rw [String.data_push, List.getLast?_concat]),
        if_neg (by decide), if_neg (by decide), if_pos (Or.inr rfl),
        String.data_push, List.dropLast_concat, hp]
    rfl

/-- Witness for C9 at the concrete all-digit token `"12"`. -/
theorem c9_getlen_witness :
    getlen "10k" = some 10240 ∧ getlen "2m" = some 2097152 ∧
    getlen "1g" = some 1073741824 ∧ getlen "500" = some 500 ∧
    getlen "12" = some ((decVal "12".data : ℤ)) ∧
    getlen (String.push "12" 'k') = some ((decVal "12".data : ℤ) * 1024) ∧
    getlen (String.push "12" 'K') = some ((decVal "12".data : ℤ) * 1024) ∧
    getlen (String.push "12" 'm') =
      some ((decVal "12".data : ℤ) * 1024 * 1024) ∧
    getlen (String.push "12" 'M') =
      some ((decVal "12".data : ℤ) * 1024 * 1024) ∧
    getlen (String.push "12" 'g') =
      some ((decVal "12".data : ℤ) * 1024 * 1024 * 1024) ∧
    getlen (String.push "12" 'G') =
      some ((decVal "12".data : ℤ) * 1024 * 1024 * 1024) :=
  c9_getlen "12" (by decide) (by decide)

/-- C10.  When the copy-phase read returns at least one byte but fewer than
`cpy_n` because the source hit end-of-file, `getdata` still completes the
whole cycle: the chunk is the remaining original bytes followed by the full
`ins_n` randomness bytes (so the last non-empty chunk can end in inserted
random bytes placed after the final original byte), the short copy length
is recorded, `ins_n` is recorded, the delete skip still runs and records 0
skipped bytes, and the next cycle's lengths are freshly sampled. -/
theorem c10_final_partial_cycle (samp : ℕ → ℕ → ℚ → ℕ) (g : GenState)
    (h1 : g.dat ≠ []) (h2 : g.dat.length < g.cpy_n)
    (h3 : g.ins_n ≤ g.ins.length) :
    (getdata samp g).1 = g.dat ++ g.ins.take g.ins_n ∧
    (getdata samp g).1.length = g.dat.length + g.ins_n ∧
    (getdata samp g).2.cpystats = g.cpystats.add g.dat.length ∧
    (getdata samp g).2.insstats = g.insstats.add g.ins_n ∧
    (getdata samp g).2.delstats = g.delstats.add 0 ∧
    (getdata samp g).2.dat = [] ∧
    (getdata samp g).2.cpy_n = max 1 (samp g.seed g.k g.clambd) := by
  have hle : g.dat.length ≤ g.cpy_n := Nat.le_of_lt h2
  have htake : g.dat.take g.cpy_n = g.dat := List.take_of_length_le hle
  have hdrop : g.dat.drop g.cpy_n = [] := List.drop_eq_nil_of_le hle
  have hd : ¬ g.dat.take g.cpy_n = [] := by
    rw [htake]
    exact h1
  have he := getdataAux_nonempty samp g hd
  refine ⟨?_, ?_, ?_, ?_, ?_, ?_, ?_⟩ <;> rw [getdata, he]
  · rw [htake]
  · rw [htake]
    simp only [List.length_append, List.length_take]
    omega
  · simp [htake]
  · simp
  · simp [hdrop]
  · simp [hdrop]
  · simp

/-- Witness for C10: two original bytes remain, `cpy_n = 5`, `ins_n = 5`,
six randomness bytes available. -/
theorem c10_final_partial_cycle_witness :
    (getdata (fun _ _ _ => 5)
        (mkData (fun _ _ _ => 5) [7, 8] 3 none none 1 [1, 2, 3, 4, 5, 6])).1
      = (mkData (fun _ _ _ => 5) [7, 8] 3 none none 1 [1, 2, 3, 4, 5, 6]).dat ++
        (mkData (fun _ _ _ => 5) [7, 8] 3 none none 1
            [1, 2, 3, 4, 5, 6]).ins.take
          (mkData (fun _ _ _ => 5) [7, 8] 3 none none 1 [1, 2, 3, 4, 5, 6]).ins_n ∧
    (getdata (fun _ _ _ => 5)
        (mkData (fun _ _ _ => 5) [7, 8] 3 none none 1 [1, 2, 3, 4, 5, 6])).1.length
      = (mkData (fun _ _ _ => 5) [7, 8] 3 none none 1
          [1, 2, 3, 4, 5, 6]).dat.length +
        (mkData (fun _ _ _ => 5) [7, 8] 3 none none 1 [1, 2, 3, 4, 5, 6]).ins_n ∧
    (getdata (fun _ _ _ => 5)
          (mkData (fun _ _ _ => 5) [7, 8] 3 none none 1
            [1, 2, 3, 4, 5, 6])).2.cpystats
      = (mkData (fun _ _ _ => 5) [7, 8] 3 none none 1
          [1, 2, 3, 4, 5, 6]).cpystats.add
          (mkData (fun _ _ _ => 5) [7, 8] 3 none none 1
            [1, 2, 3, 4, 5, 6]).dat.length ∧
    (getdata (fun _ _ _ => 5)
          (mkData (fun _ _ _ => 5) [7, 8] 3 none none 1
            [1, 2, 3, 4, 5, 6])).2.insstats
      = (mkData (fun _ _ _ => 5) [7, 8] 3 none none 1
          [1, 2, 3, 4, 5, 6]).insstats.add
          (mkData (fun _ _ _ => 5) [7, 8] 3 none none 1 [1, 2, 3, 4, 5, 6]).ins_n ∧
    (getdata (fun _ _ _ => 5)
          (mkData (fun _ _ _ => 5) [7, 8] 3 none none 1
            [1, 2, 3, 4, 5, 6])).2.delstats
      = (mkData (fun _ _ _ => 5) [7, 8] 3 none none 1
          [1, 2, 3, 4, 5, 6]).delstats.add 0 ∧
    (getdata (fun _ _ _ => 5)
        (mkData (fun _ _ _ => 5) [7, 8] 3 none none 1 [1, 2, 3, 4, 5, 6])).2.dat
      = [] ∧
    (getdata (fun _ _ _ => 5)
        (mkData (fun _ _ _ => 5) [7, 8] 3 none none 1 [1, 2, 3, 4, 5, 6])).2.cpy_n
      = max 1 ((fun _ _ _ => 5)
          (mkData (fun _ _ _ => 5) [7, 8] 3 none none 1 [1, 2, 3, 4, 5, 6]).seed
          (mkData (fun _ _ _ => 5) [7, 8] 3 none none 1 [1, 2, 3, 4, 5, 6]).k
          (mkData (fun _ _ _ => 5) [7, 8] 3 none none 1
            [1, 2, 3, 4, 5, 6]).clambd) :=
  c10_final_partial_cycle (fun _ _ _ => 5)
    (mkData (fun _ _ _ => 5) [7, 8] 3 none none 1 [1, 2, 3, 4, 5, 6])
    (by decide) (by decide) (by decide)

end Modfile
